import Mathlib

/-
Verification of the graph interaction and presentation-state engine of the
graphrag-visualizer repository, a shallow embedding of the GraphViewer
component (src/app/components/GraphViewer.tsx) in Lean 4.

Modelling conventions:
- JavaScript numbers that carry positions or zoom factors are rationals.
- Optional object fields become Option values; the JavaScript truthiness
  test on an optional string (undefined, null and the empty string are
  falsy) is the function truthyStr below.
- A JavaScript Set is modelled as a duplicate-free list built with jsSetAdd,
  which preserves insertion order exactly as Set iteration does.
- A link endpoint is either a raw identifier or a resolved node object,
  modelled as a Sum, mirroring the typeof checks in the source.
-/

namespace GraphViewer

/-- A node of the knowledge graph as used by GraphViewer.  The field list
keeps the fields the component reads: identifier, uuid, name, type, the
external cross reference id (human readable id), the claim marker
(covariate type), the source text, layout coordinates, the derived degree
and the back reference list of neighbor node ids. -/
structure CustomNode where
  id : String
  uuid : String
  name : String
  type : Option String
  human_readable_id : Option String
  covariate_type : Option String
  text : Option String
  x : ℚ
  y : ℚ
  degree : Nat
  neighbors : List String
deriving DecidableEq, Repr

/-- A link of the knowledge graph.  Endpoints are either raw identifiers or
resolved node objects, as in the source where typeof link.source is
inspected before member access. -/
structure CustomLink where
  source : Sum String CustomNode
  target : Sum String CustomNode
  type : Option String
  human_readable_id : Option String
deriving DecidableEq, Repr

/-- The canonical dataset snapshot handed to the component. -/
structure CustomGraphData where
  nodes : List CustomNode
  links : List CustomLink
deriving DecidableEq, Repr

/-- The four category inclusion flags of the component. -/
structure CategoryFlags where
  includeDocuments : Bool
  includeTextUnits : Bool
  includeCommunities : Bool
  includeCovariates : Bool
deriving DecidableEq, Repr

/-- JavaScript truthiness of an optional string field: undefined and the
empty string are falsy, every other string is truthy. -/
def truthyStr : Option String → Bool
  | some s => decide (s ≠ "")
  | none => false

/-- The id of a link endpoint: the raw identifier, or the id field of the
resolved node, as computed by the conditional expressions
(typeof link.source === "object" ? link.source.id : link.source). -/
def endpointId : Sum String CustomNode → String
  | Sum.inl s => s
  | Sum.inr n => n.id

/-- The optimizedNodes memo: every node of the dataset with its degree
recomputed as the length of its neighbor list. -/
def optimizedNodes (nodes : List CustomNode) : List CustomNode :=
  nodes.map (fun n => { n with degree := n.neighbors.length })

/-- The switch statement of the filteredGraphData memo: keep a node when
its lower cased type is not one of the four gated categories, and keep a
gated node exactly when the corresponding flag is set.  A node without a
type falls into the default branch and is kept. -/
def categoryKeep (flags : CategoryFlags) (n : CustomNode) : Bool :=
  match n.type with
  | none => true
  | some t =>
    match t.toLower with
    | "textunit" => flags.includeTextUnits
    | "community" => flags.includeCommunities
    | "covariate" => flags.includeCovariates
    | "document" => flags.includeDocuments
    | _ => true

/-- The filteredGraphData memo: filter the optimized nodes by category,
collect the surviving node ids, and keep exactly the links whose two
endpoint ids are members of that id collection. -/
def filteredGraphData (d : CustomGraphData) (flags : CategoryFlags) :
    CustomGraphData :=
  let filteredNodes := (optimizedNodes d.nodes).filter (categoryKeep flags)
  let nodeIds := filteredNodes.map (fun n => n.id)
  let filteredLinks := d.links.filter (fun l =>
    decide (endpointId l.source ∈ nodeIds) &&
    decide (endpointId l.target ∈ nodeIds))
  { nodes := filteredNodes, links := filteredLinks }

/-- The onChange handler of the Include Text Units checkbox, as a pure
transition on the flag state. -/
def onTextUnitsCheckboxChange (s : CategoryFlags) : CategoryFlags :=
  if !s.includeTextUnits then
    { s with includeTextUnits := true }
  else if s.includeTextUnits && !s.includeCovariates then
    { s with includeTextUnits := false }
  else
    { s with includeTextUnits := false, includeCovariates := false }

/-- The onChange handler of the Include Covariates checkbox, as a pure
transition on the flag state. -/
def onCovariatesCheckboxChange (s : CategoryFlags) : CategoryFlags :=
  if !s.includeCovariates then
    let s1 := if !s.includeTextUnits then { s with includeTextUnits := true } else s
    { s1 with includeCovariates := true }
  else
    { s with includeCovariates := false }

/-- A stored remote search result; the component only tests the stored
value against null, so the payload is irrelevant here. -/
structure ApiSearchResult where
  response : String
deriving DecidableEq, Repr

/-- Disabled predicate of the Include Documents checkbox. -/
def documentsCheckboxDisabled (hasDocuments : Bool)
    (apiSearchResults : Option ApiSearchResult) : Bool :=
  !hasDocuments || apiSearchResults.isSome

/-- Disabled predicate of the Include Text Units checkbox. -/
def textUnitsCheckboxDisabled (hasTextUnits : Bool)
    (apiSearchResults : Option ApiSearchResult) : Bool :=
  !hasTextUnits || apiSearchResults.isSome

/-- Disabled predicate of the Include Communities checkbox. -/
def communitiesCheckboxDisabled (hasCommunities : Bool)
    (apiSearchResults : Option ApiSearchResult) : Bool :=
  !hasCommunities || apiSearchResults.isSome

/-- Disabled predicate of the Include Covariates checkbox. -/
def covariatesCheckboxDisabled (hasCovariates : Bool)
    (apiSearchResults : Option ApiSearchResult) : Bool :=
  !hasCovariates || apiSearchResults.isSome

/-- C1: for every dataset and every combination of the four category flags,
each link of the filtered output has both endpoint ids present among the
filtered nodes, and the filtered link set is exactly the set of dataset
links whose two endpoints survive the node filter. -/
theorem c1_category_filter_no_dangling_links
    (d : CustomGraphData) (flags : CategoryFlags) :
    (∀ l ∈ (filteredGraphData d flags).links,
      (∃ n ∈ (filteredGraphData d flags).nodes, n.id = endpointId l.source) ∧
      (∃ n ∈ (filteredGraphData d flags).nodes, n.id = endpointId l.target)) ∧
    (∀ l, l ∈ (filteredGraphData d flags).links ↔
      l ∈ d.links ∧
      (∃ n ∈ (filteredGraphData d flags).nodes, n.id = endpointId l.source) ∧
      (∃ n ∈ (filteredGraphData d flags).nodes, n.id = endpointId l.target)) := by
  constructor
  · intro l hl
    have h := (List.mem_filter.mp hl).2
    simp only [Bool.and_eq_true, decide_eq_true_eq, List.mem_map] at h
    obtain ⟨⟨ns, hns, hnsid⟩, ⟨nt, hnt, hntid⟩⟩ := h
    exact ⟨⟨ns, hns, hnsid⟩, ⟨nt, hnt, hntid⟩⟩
  · intro l
    constructor
    · intro hl
      have hmem := (List.mem_filter.mp hl).1
      have h := (List.mem_filter.mp hl).2
      simp only [Bool.and_eq_true, decide_eq_true_eq, List.mem_map] at h
      obtain ⟨⟨ns, hns, hnsid⟩, ⟨nt, hnt, hntid⟩⟩ := h
      exact ⟨hmem, ⟨ns, hns, hnsid⟩, ⟨nt, hnt, hntid⟩⟩
    · rintro ⟨hmem, ⟨ns, hns, hnsid⟩, ⟨nt, hnt, hntid⟩⟩
      refine List.mem_filter.mpr ⟨hmem, ?_⟩
      simp only [Bool.and_eq_true, decide_eq_true_eq, List.mem_map]
      exact ⟨⟨ns, hns, hnsid⟩, ⟨nt, hnt, hntid⟩⟩

/-- Concrete dataset for the C1 witness: two plain nodes and one link
connecting them by raw identifier. -/
def c1Node (i : String) (u : String) : CustomNode :=
  { id := i, uuid := u, name := i, type := none, human_readable_id := none,
    covariate_type := none, text := none, x := 0, y := 0, degree := 0,
    neighbors := [] }

def c1LinkAB : CustomLink :=
  { source := Sum.inl "a", target := Sum.inl "b", type := none,
    human_readable_id := none }

def c1Data : CustomGraphData :=
  { nodes := [c1Node "a" "ua", c1Node "b" "ub"], links := [c1LinkAB] }

def c1Flags : CategoryFlags :=
  { includeDocuments := true, includeTextUnits := true,
    includeCommunities := true, includeCovariates := true }

/-- Witness for C1: on a concrete dataset the theorem yields both surviving
endpoints of the single filtered link. -/
theorem c1_category_filter_no_dangling_links_witness :
    (∃ n ∈ (filteredGraphData c1Data c1Flags).nodes,
      n.id = endpointId c1LinkAB.source) ∧
    (∃ n ∈ (filteredGraphData c1Data c1Flags).nodes,
      n.id = endpointId c1LinkAB.target) :=
  (c1_category_filter_no_dangling_links c1Data c1Flags).1 c1LinkAB (by decide)

/-- C3: the claim and text unit dependency is enforced by the onChange
handlers themselves: unchecking text units while covariates is on clears
both flags, and checking covariates while text units is off sets both
flags. -/
theorem c3_category_dependency (s : CategoryFlags) :
    (s.includeTextUnits = true → s.includeCovariates = true →
      (onTextUnitsCheckboxChange s).includeTextUnits = false ∧
      (onTextUnitsCheckboxChange s).includeCovariates = false) ∧
    (s.includeTextUnits = false → s.includeCovariates = false →
      (onCovariatesCheckboxChange s).includeTextUnits = true ∧
      (onCovariatesCheckboxChange s).includeCovariates = true) := by
  obtain ⟨d, tu, co, cv⟩ := s
  cases tu <;> cases cv <;>
    simp [onTextUnitsCheckboxChange, onCovariatesCheckboxChange]

/-- Witness for C3: evaluated at the all-on flag state and the all-off
flag state. -/
theorem c3_category_dependency_witness :
    ((onTextUnitsCheckboxChange
        ⟨true, true, true, true⟩).includeTextUnits = false ∧
     (onTextUnitsCheckboxChange
        ⟨true, true, true, true⟩).includeCovariates = false) ∧
    ((onCovariatesCheckboxChange
        ⟨false, false, false, false⟩).includeTextUnits = true ∧
     (onCovariatesCheckboxChange
        ⟨false, false, false, false⟩).includeCovariates = true) :=
  ⟨(c3_category_dependency ⟨true, true, true, true⟩).1 rfl rfl,
   (c3_category_dependency ⟨false, false, false, false⟩).2 rfl rfl⟩

/-- C10: while a mapped remote search result is stored, all four category
checkboxes are disabled, and a checkbox whose category is absent from the
dataset is disabled as well. -/
theorem c10_checkboxes_disabled (hd ht hc hv : Bool)
    (api : Option ApiSearchResult) :
    (api.isSome = true →
      documentsCheckboxDisabled hd api = true ∧
      textUnitsCheckboxDisabled ht api = true ∧
      communitiesCheckboxDisabled hc api = true ∧
      covariatesCheckboxDisabled hv api = true) ∧
    (hd = false → documentsCheckboxDisabled hd api = true) ∧
    (ht = false → textUnitsCheckboxDisabled ht api = true) ∧
    (hc = false → communitiesCheckboxDisabled hc api = true) ∧
    (hv = false → covariatesCheckboxDisabled hv api = true) := by
  refine ⟨?_, ?_, ?_, ?_, ?_⟩ <;> intro h <;>
    simp [documentsCheckboxDisabled, textUnitsCheckboxDisabled,
      communitiesCheckboxDisabled, covariatesCheckboxDisabled, h]

/-- Witness for C10: with a stored search result every checkbox is
disabled, and with an absent category the matching checkbox is disabled. -/
theorem c10_checkboxes_disabled_witness :
    (documentsCheckboxDisabled true (some ⟨"r"⟩) = true ∧
     textUnitsCheckboxDisabled true (some ⟨"r"⟩) = true ∧
     communitiesCheckboxDisabled true (some ⟨"r"⟩) = true ∧
     covariatesCheckboxDisabled true (some ⟨"r"⟩) = true) ∧
    documentsCheckboxDisabled false none = true :=
  ⟨(c10_checkboxes_disabled true true true true (some ⟨"r"⟩)).1 rfl,
   (c10_checkboxes_disabled false true true true none).2.1 rfl⟩

/-- Insertion into a JavaScript Set: add the element at the end unless it
is already present. -/
def jsSetAdd {α : Type} [DecidableEq α] (s : List α) (x : α) : List α :=
  if x ∈ s then s else s ++ [x]

/-- Adding a whole list of elements to a JavaScript Set, in order, as the
forEach loops of the hover handlers do. -/
def jsSetAddAll {α : Type} [DecidableEq α] (s : List α) (xs : List α) : List α :=
  xs.foldl jsSetAdd s

theorem mem_jsSetAdd {α : Type} [DecidableEq α] (s : List α) (y x : α) :
    x ∈ jsSetAdd s y ↔ x ∈ s ∨ x = y := by
  unfold jsSetAdd
  split
  · rename_i h
    constructor
    · exact Or.inl
    · rintro (hx | rfl)
      · exact hx
      · exact h
  · simp [List.mem_append]

theorem mem_jsSetAddAll {α : Type} [DecidableEq α] (xs : List α) :
    ∀ (s : List α) (x : α), x ∈ jsSetAddAll s xs ↔ x ∈ s ∨ x ∈ xs := by
  induction xs with
  | nil => intro s x; simp [jsSetAddAll]
  | cons y ys ih =>
    intro s x
    have : jsSetAddAll s (y :: ys) = jsSetAddAll (jsSetAdd s y) ys := rfl
    rw [this, ih, mem_jsSetAdd]
    simp [or_assoc]

/-- A hovered node together with its two back reference fields: the
neighbor node objects and the incident link objects the runtime stores on
the node itself. -/
structure HoverTarget where
  node : CustomNode
  neighbors : List CustomNode
  links : List CustomLink
deriving DecidableEq, Repr

/-- The highlight state of the component: the two highlight sets and the
hovered node. -/
structure HighlightState where
  highlightNodes : List CustomNode
  highlightLinks : List CustomLink
  hoverNode : Option CustomNode
deriving DecidableEq, Repr

def emptyHighlight : HighlightState :=
  { highlightNodes := [], highlightLinks := [], hoverNode := none }

/-- The handleNodeHover callback: build two fresh sets from scratch (the
hovered node, then each neighbor, and each incident link), then store them,
replacing whatever was highlighted before.  The previous state is not read
at all when forming the sets. -/
def handleNodeHover (node : Option HoverTarget) (_prev : HighlightState) :
    HighlightState :=
  let newHighlightNodes : List CustomNode :=
    match node with
    | some t => jsSetAddAll (jsSetAdd [] t.node) t.neighbors
    | none => []
  let newHighlightLinks : List CustomLink :=
    match node with
    | some t => jsSetAddAll [] t.links
    | none => []
  { highlightNodes := newHighlightNodes,
    highlightLinks := newHighlightLinks,
    hoverNode := node.map (fun t => t.node) }

/-- The handleLinkHover callback: build two fresh sets (the link, plus each
endpoint that is a resolved node object), then store them.  The hovered
node field is not touched by this handler. -/
def handleLinkHover (link : Option CustomLink) (prev : HighlightState) :
    HighlightState :=
  match link with
  | none => { prev with highlightNodes := [], highlightLinks := [] }
  | some l =>
    let s1 : List CustomNode :=
      match l.source with
      | Sum.inr n => jsSetAdd [] n
      | Sum.inl _ => []
    let s2 : List CustomNode :=
      match l.target with
      | Sum.inr n => jsSetAdd s1 n
      | Sum.inl _ => s1
    { prev with highlightNodes := s2, highlightLinks := jsSetAdd [] l }

/-- C9: both hover handlers replace the HighlightSet wholesale.  Hovering a
node makes the node set exactly the node plus its direct neighbors and the
link set exactly its incident links; hovering a link makes the link set
exactly that link and the node set exactly its resolved endpoints; hovering
null empties both sets; and the produced sets never depend on the previous
highlight state. -/
theorem c9_highlight_set_replaced
    (t : HoverTarget) (l : CustomLink) (prev prev2 : HighlightState) :
    (∀ x, x ∈ (handleNodeHover (some t) prev).highlightNodes ↔
      x = t.node ∨ x ∈ t.neighbors) ∧
    (∀ lk, lk ∈ (handleNodeHover (some t) prev).highlightLinks ↔
      lk ∈ t.links) ∧
    handleNodeHover none prev = emptyHighlight ∧
    (∀ x, x ∈ (handleLinkHover (some l) prev).highlightNodes ↔
      l.source = Sum.inr x ∨ l.target = Sum.inr x) ∧
    (∀ lk, lk ∈ (handleLinkHover (some l) prev).highlightLinks ↔ lk = l) ∧
    (handleLinkHover none prev).highlightNodes = [] ∧
    (handleLinkHover none prev).highlightLinks = [] ∧
    handleNodeHover (some t) prev = handleNodeHover (some t) prev2 ∧
    (handleLinkHover (some l) prev).highlightNodes =
      (handleLinkHover (some l) prev2).highlightNodes ∧
    (handleLinkHover (some l) prev).highlightLinks =
      (handleLinkHover (some l) prev2).highlightLinks := by
  refine ⟨?_, ?_, rfl, ?_, ?_, rfl, rfl, rfl, rfl, rfl⟩
  · intro x
    show x ∈ jsSetAddAll (jsSetAdd [] t.node) t.neighbors ↔ _
    rw [mem_jsSetAddAll, mem_jsSetAdd]
    simp [eq_comm]
  · intro lk
    show lk ∈ jsSetAddAll [] t.links ↔ _
    rw [mem_jsSetAddAll]
    simp
  · intro x
    show x ∈ (match l.target with
      | Sum.inr n => jsSetAdd (match l.source with
          | Sum.inr m => jsSetAdd [] m
          | Sum.inl _ => []) n
      | Sum.inl _ => (match l.source with
          | Sum.inr m => jsSetAdd [] m
          | Sum.inl _ => [])) ↔ _
    rcases hs : l.source with s | ns <;> rcases ht : l.target with u | nt <;>
      simp [jsSetAdd, eq_comm]
    by_cases h : ns = nt
    · subst h; simp
    · simp [h]
  · intro lk
    show lk ∈ jsSetAdd [] l ↔ _
    simp [jsSetAdd]

/-- The current zoom factor of the two dimensional view, a rational. -/
abbrev GraphZoom := ℚ

/-- The nodeVisibility prop: below zoom one half only nodes of degree
greater than two are shown; otherwise every node is shown. -/
def nodeVisibility (graphZoom : GraphZoom) (node : CustomNode) : Bool :=
  if graphZoom < 1/2 then decide (2 < node.degree) else true

/-- The linkVisibility prop: below zoom one half a link is shown only when
both endpoints are resolved node objects and at least one of them has
degree greater than two; otherwise every link is shown. -/
def linkVisibility (graphZoom : GraphZoom) (link : CustomLink) : Bool :=
  if graphZoom < 1/2 then
    match link.source, link.target with
    | Sum.inr s, Sum.inr t => decide (2 < s.degree) || decide (2 < t.degree)
    | _, _ => false
  else true

/-- C8: below zoom one half a node is visible exactly when its degree
exceeds two and a visible link has a resolved endpoint of degree exceeding
two; from zoom one half upward every node and every link is visible. -/
theorem c8_low_zoom_visibility (k : GraphZoom) (n : CustomNode)
    (l : CustomLink) :
    (k < 1/2 → (nodeVisibility k n = true ↔ 2 < n.degree)) ∧
    (k < 1/2 → linkVisibility k l = true →
      ∃ m : CustomNode, (l.source = Sum.inr m ∨ l.target = Sum.inr m) ∧
        2 < m.degree) ∧
    (1/2 ≤ k → nodeVisibility k n = true ∧ linkVisibility k l = true) := by
  refine ⟨?_, ?_, ?_⟩
  · intro hk
    unfold nodeVisibility
    rw [if_pos hk]
    simp only [decide_eq_true_eq]
  · intro hk hvis
    rw [linkVisibility, if_pos hk] at hvis
    rcases hs : l.source with s | ns <;> rcases ht : l.target with u | nt <;>
      rw [hs, ht] at hvis <;> simp at hvis
    rcases hvis with h | h
    · exact ⟨ns, Or.inl rfl, h⟩
    · exact ⟨nt, Or.inr rfl, h⟩
  · intro hk
    have hnot : ¬ k < 1/2 := not_lt.mpr hk
    constructor
    · unfold nodeVisibility
      rw [if_neg hnot]
    · unfold linkVisibility
      rw [if_neg hnot]

/-- Concrete values for the C8 witness. -/
def c8Node : CustomNode :=
  { id := "h", uuid := "uh", name := "h", type := none,
    human_readable_id := none, covariate_type := none, text := none,
    x := 0, y := 0, degree := 3, neighbors := [] }

def c8Link : CustomLink :=
  { source := Sum.inr c8Node, target := Sum.inr c8Node, type := none,
    human_readable_id := none }

/-- Witness for C8: evaluated at zoom one quarter on a degree three node
and a fully resolved link, and at zoom one for the full visibility half. -/
theorem c8_low_zoom_visibility_witness :
    (nodeVisibility (1/4) c8Node = true ↔ 2 < c8Node.degree) ∧
    (∃ m : CustomNode, (c8Link.source = Sum.inr m ∨ c8Link.target = Sum.inr m) ∧
      2 < m.degree) ∧
    (nodeVisibility 1 c8Node = true ∧ linkVisibility 1 c8Link = true) :=
  ⟨(c8_low_zoom_visibility (1/4) c8Node c8Link).1 (by norm_num),
   (c8_low_zoom_visibility (1/4) c8Node c8Link).2.1 (by norm_num)
     (by unfold linkVisibility
         rw [if_pos (by norm_num : (1 : ℚ)/4 < 1/2)]
         rfl),
   (c8_low_zoom_visibility 1 c8Node c8Link).2.2 (by norm_num)⟩

/-- An item of the remote search response context, with the two fields the
mapper reads: its id and, for source items, its text. -/
structure ApiItem where
  id : String
  text : Option String
deriving DecidableEq, Repr

/-- The context data of a remote search response: named arrays keyed by
strings such as entities, relationships, reports, sources, covariates and
claims, iterated in entry order. -/
abbrev ContextData := List (String × List ApiItem)

/-- The per item branch of updateGraphData: depending on the entry key,
look up the first matching link or node of the base dataset, returning the
nodes and links this item contributes. -/
def matchContextItem (base : CustomGraphData) (key : String)
    (item : ApiItem) : List CustomNode × List CustomLink :=
  if key = "relationships" then
    match base.links.find? (fun l =>
        l.human_readable_id == some item.id) with
    | some l => ([], [l])
    | none => ([], [])
  else if key = "entities" then
    match base.nodes.find? (fun n =>
        n.human_readable_id == some item.id && !truthyStr n.covariate_type) with
    | some n => ([n], [])
    | none => ([], [])
  else if key = "reports" then
    match base.nodes.find? (fun n => n.uuid == item.id) with
    | some n => ([n], [])
    | none => ([], [])
  else if key = "sources" then
    match base.nodes.find? (fun n => n.text == item.text) with
    | some n => ([n], [])
    | none => ([], [])
  else if key = "covariates" || key = "claims" then
    match base.nodes.find? (fun n =>
        n.human_readable_id == some item.id && truthyStr n.covariate_type) with
    | some n => ([n], [])
    | none => ([], [])
  else ([], [])

/-- The body of updateGraphData: iterate the context entries and their
items in order, pushing every match onto the new node and link arrays, and
return a dataset holding exactly those arrays. -/
def updateGraphData (base : CustomGraphData) (contextData : ContextData) :
    CustomGraphData :=
  let acc := contextData.foldl (fun acc kv =>
    kv.2.foldl (fun acc item =>
      let m := matchContextItem base kv.1 item
      (acc.1 ++ m.1, acc.2 ++ m.2)) acc)
    (([], []) : List CustomNode × List CustomLink)
  { nodes := acc.1, links := acc.2 }

/-- The state transition performed after a remote search: the new displayed
snapshot is updateGraphData applied to the retained initial dataset; the
previously displayed snapshot is discarded, never read. -/
def applySearchResult (base : CustomGraphData)
    (_displayedBefore : CustomGraphData) (contextData : ContextData) :
    CustomGraphData :=
  updateGraphData base contextData

/-- Modelled from the spec table of section 4.7: the node, if any, that a
response item under the given key resolves to in the base dataset. -/
def specResolveNode (base : CustomGraphData) (key : String)
    (item : ApiItem) : Option CustomNode :=
  if key = "entities" then
    base.nodes.find? (fun n =>
      n.human_readable_id == some item.id && !truthyStr n.covariate_type)
  else if key = "reports" then
    base.nodes.find? (fun n => n.uuid == item.id)
  else if key = "sources" then
    base.nodes.find? (fun n => n.text == item.text)
  else if key = "covariates" || key = "claims" then
    base.nodes.find? (fun n =>
      n.human_readable_id == some item.id && truthyStr n.covariate_type)
  else none

/-- Modelled from the spec table of section 4.7: the link, if any, that a
response item under the given key resolves to in the base dataset. -/
def specResolveLink (base : CustomGraphData) (key : String)
    (item : ApiItem) : Option CustomLink :=
  if key = "relationships" then
    base.links.find? (fun l => l.human_readable_id == some item.id)
  else none

/-- Modelled from the spec: the mapper output is exactly the matched nodes
and exactly the matched links, unmatched items silently dropped. -/
def specMapper (base : CustomGraphData) (contextData : ContextData) :
    CustomGraphData :=
  { nodes := contextData.flatMap (fun kv =>
      kv.2.filterMap (fun item => specResolveNode base kv.1 item)),
    links := contextData.flatMap (fun kv =>
      kv.2.filterMap (fun item => specResolveLink base kv.1 item)) }

theorem matchContextItem_eq (base : CustomGraphData) (key : String)
    (item : ApiItem) :
    matchContextItem base key item =
      ((specResolveNode base key item).toList,
       (specResolveLink base key item).toList) := by
  unfold matchContextItem specResolveNode specResolveLink
  by_cases h1 : key = "relationships"
  · simp only [h1]
    cases base.links.find? (fun l => l.human_readable_id == some item.id) <;>
      simp
  · by_cases h2 : key = "entities"
    · simp only [h1, h2]
      cases base.nodes.find? (fun n =>
        n.human_readable_id == some item.id && !truthyStr n.covariate_type) <;>
        simp
    · by_cases h3 : key = "reports"
      · simp only [h1, h2, h3]
        cases base.nodes.find? (fun n => n.uuid == item.id) <;> simp
      · by_cases h4 : key = "sources"
        · simp only [h1, h2, h3, h4]
          cases base.nodes.find? (fun n => n.text == item.text) <;> simp
        · by_cases h5 : key = "covariates" ∨ key = "claims"
          · have h5b : (key = "covariates" || key = "claims") = true := by
              rcases h5 with h | h <;> simp [h]
            simp only [h1, h2, h3, h4, if_neg h1, if_neg h2, if_neg h3,
              if_neg h4, h5b, if_pos]
            cases base.nodes.find? (fun n =>
              n.human_readable_id == some item.id &&
              truthyStr n.covariate_type) <;> simp
          · have h5b : ¬ (key = "covariates" || key = "claims") = true := by
              simp only [Bool.or_eq_true, decide_eq_true_eq]
              exact h5
            simp [h1, h2, h3, h4, h5b]

theorem updateGraphData_items_fold (base : CustomGraphData) (key : String)
    (items : List ApiItem) :
    ∀ acc : List CustomNode × List CustomLink,
      items.foldl (fun acc item =>
        let m := matchContextItem base key item
        (acc.1 ++ m.1, acc.2 ++ m.2)) acc =
      (acc.1 ++ items.filterMap (fun item => specResolveNode base key item),
       acc.2 ++ items.filterMap (fun item => specResolveLink base key item)) := by
  induction items with
  | nil => intro acc; simp
  | cons item rest ih =>
    intro acc
    simp only [List.foldl_cons, List.filterMap_cons]
    rw [ih, matchContextItem_eq]
    cases hn : specResolveNode base key item <;>
      cases hl : specResolveLink base key item <;>
      simp [hn, hl]

theorem updateGraphData_entries_fold (base : CustomGraphData)
    (contextData : ContextData) :
    ∀ acc : List CustomNode × List CustomLink,
      contextData.foldl (fun acc kv =>
        kv.2.foldl (fun acc item =>
          let m := matchContextItem base kv.1 item
          (acc.1 ++ m.1, acc.2 ++ m.2)) acc) acc =
      (acc.1 ++ contextData.flatMap (fun kv =>
        kv.2.filterMap (fun item => specResolveNode base kv.1 item)),
       acc.2 ++ contextData.flatMap (fun kv =>
        kv.2.filterMap (fun item => specResolveLink base kv.1 item))) := by
  induction contextData with
  | nil => intro acc; simp
  | cons kv rest ih =>
    intro acc
    simp only [List.foldl_cons, List.flatMap_cons]
    rw [updateGraphData_items_fold, ih]
    simp [List.append_assoc]

/-- The node with external id five of the concrete C2 example. -/
def c2NodeFive : CustomNode :=
  { id := "n5", uuid := "u5", name := "Five", type := none,
    human_readable_id := some "5", covariate_type := none, text := none,
    x := 0, y := 0, degree := 0, neighbors := [] }

/-- A second node of the concrete C2 example base dataset, not matched. -/
def c2NodeSeven : CustomNode :=
  { id := "n7", uuid := "u7", name := "Seven", type := none,
    human_readable_id := some "7", covariate_type := none, text := none,
    x := 0, y := 0, degree := 0, neighbors := [] }

/-- A link of the concrete C2 example base dataset, not matched. -/
def c2LinkBase : CustomLink :=
  { source := Sum.inl "n5", target := Sum.inl "n7", type := none,
    human_readable_id := some "12" }

def c2Base : CustomGraphData :=
  { nodes := [c2NodeSeven, c2NodeFive], links := [c2LinkBase] }

/-- An arbitrary previously displayed snapshot, to show it is discarded. -/
def c2Displayed : CustomGraphData :=
  { nodes := [c2NodeSeven], links := [c2LinkBase] }

def c2Context : ContextData := [("entities", [{ id := "5", text := none }])]

/-- C2: for every response, the mapper resolves each item against the
retained base snapshot by the per key rules, drops unmatched items, and the
resulting displayed snapshot is exactly the matched nodes and links,
independent of the snapshot displayed before; on the concrete example with
entities containing id five, the output is exactly the node with external
id five and no links. -/
theorem c2_external_result_mapper :
    (∀ (base displayed : CustomGraphData) (contextData : ContextData),
      applySearchResult base displayed contextData =
        specMapper base contextData) ∧
    applySearchResult c2Base c2Displayed c2Context =
      { nodes := [c2NodeFive], links := [] } := by
  constructor
  · intro base displayed contextData
    unfold applySearchResult updateGraphData specMapper
    rw [updateGraphData_entries_fold]
    simp
  · decide

/-- JavaScript Math.round: the floor of the argument plus one half. -/
def jsRound (q : ℚ) : ℤ := Int.floor (q + 1/2)

/-- The grid cell key of a node inside clusterNodes: the rounded quotient
of each coordinate by the threshold. -/
def cellKey (threshold : ℚ) (n : CustomNode) : ℤ × ℤ :=
  (jsRound (n.x / threshold), jsRound (n.y / threshold))

/-- A synthetic cluster node built by clusterNodes from a cell with at
least two members.  The rendered size is the square root of the member
count times the node radius, an irrational quantity determined by the
memberCount field recorded here. -/
structure ClusterNode where
  id : String
  uuid : String
  name : String
  memberCount : Nat
  members : List CustomNode
deriving DecidableEq, Repr

/-- One step of the forEach loop of clusterNodes: push a node onto the
group of its cell key, creating the group at the end when the key is new,
exactly like property insertion into a JavaScript object literal. -/
def insertIntoClusters (key : ℤ × ℤ) (n : CustomNode) :
    List ((ℤ × ℤ) × List CustomNode) → List ((ℤ × ℤ) × List CustomNode)
  | [] => [(key, [n])]
  | (k, g) :: rest =>
    if k = key then (k, g ++ [n]) :: rest
    else (k, g) :: insertIntoClusters key n rest

/-- The clusters object of clusterNodes: cells in first appearance order,
each holding its members in encounter order. -/
def buildClusters (threshold : ℚ) (nodes : List CustomNode) :
    List ((ℤ × ℤ) × List CustomNode) :=
  nodes.foldl (fun acc n => insertIntoClusters (cellKey threshold n) n acc) []

/-- The map body of clusterNodes: a cell with exactly one member yields
that node unchanged, any other cell yields a ClusterNode whose id and uuid
join the member ids in the order they sit in the cell. -/
def mkLodElem (g : List CustomNode) : Sum CustomNode ClusterNode :=
  match g with
  | [n] => Sum.inl n
  | g =>
    Sum.inr
      { id := "cluster-" ++ String.intercalate "-" (g.map (fun n => n.id)),
        uuid := "cluster-" ++ String.intercalate "-" (g.map (fun n => n.uuid)),
        name := "Cluster (" ++ toString g.length ++ ")",
        memberCount := g.length,
        members := g }

/-- The clusterNodes function of the component. -/
def clusterNodes (nodes : List CustomNode) (threshold : ℚ) :
    List (Sum CustomNode ClusterNode) :=
  (buildClusters threshold nodes).map (fun kg => mkLodElem kg.2)

/-- The fixed cluster threshold state of the component. -/
def clusterThreshold : ℚ := 100

/-- Appending a key to a key list unless already present. -/
def insertKey (k : ℤ × ℤ) (ks : List (ℤ × ℤ)) : List (ℤ × ℤ) :=
  if k ∈ ks then ks else ks ++ [k]

/-- The distinct cell keys of a node list, in first appearance order. -/
def keysInOrder (threshold : ℚ) (nodes : List CustomNode) : List (ℤ × ℤ) :=
  nodes.foldl (fun ks n => insertKey (cellKey threshold n) ks) []

/-- The cell grouping stated independently of the fold: for every distinct
key in first appearance order, the sublist of input nodes that fall into
that cell, in input order. -/
def cellGroups (threshold : ℚ) (nodes : List CustomNode) :
    List ((ℤ × ℤ) × List CustomNode) :=
  (keysInOrder threshold nodes).map
    (fun k => (k, nodes.filter (fun n => decide (cellKey threshold n = k))))

theorem mem_insertKey (k j : ℤ × ℤ) (ks : List (ℤ × ℤ)) :
    j ∈ insertKey k ks ↔ j ∈ ks ∨ j = k := by
  unfold insertKey
  split
  · rename_i h
    constructor
    · exact Or.inl
    · rintro (hj | rfl)
      · exact hj
      · exact h
  · simp [List.mem_append]

theorem nodup_insertKey (k : ℤ × ℤ) (ks : List (ℤ × ℤ)) (h : ks.Nodup) :
    (insertKey k ks).Nodup := by
  unfold insertKey
  split
  · exact h
  · rename_i hk
    rw [List.nodup_append]
    refine ⟨h, List.nodup_singleton _, ?_⟩
    intro a ha hmem
    rw [List.mem_singleton] at hmem
    subst hmem
    exact hk ha

theorem keysInOrder_append (T : ℚ) (ms : List CustomNode) (n : CustomNode) :
    keysInOrder T (ms ++ [n]) = insertKey (cellKey T n) (keysInOrder T ms) := by
  unfold keysInOrder
  rw [List.foldl_append]
  rfl

theorem buildClusters_append (T : ℚ) (ms : List CustomNode) (n : CustomNode) :
    buildClusters T (ms ++ [n]) =
      insertIntoClusters (cellKey T n) n (buildClusters T ms) := by
  unfold buildClusters
  rw [List.foldl_append]
  rfl

theorem mem_keysInOrder (T : ℚ) (ns : List CustomNode) (k : ℤ × ℤ) :
    k ∈ keysInOrder T ns ↔ ∃ n ∈ ns, cellKey T n = k := by
  induction ns using List.reverseRecOn with
  | nil => simp [keysInOrder]
  | append_singleton ms n ih =>
    rw [keysInOrder_append, mem_insertKey, ih]
    constructor
    · rintro (⟨m, hm, hk⟩ | rfl)
      · exact ⟨m, by simp [hm], hk⟩
      · exact ⟨n, by simp, rfl⟩
    · rintro ⟨m, hm, hk⟩
      rcases List.mem_append.mp hm with h | h
      · exact Or.inl ⟨m, h, hk⟩
      · rw [List.mem_singleton] at h
        subst h
        exact Or.inr hk.symm

theorem keysInOrder_nodup (T : ℚ) (ns : List CustomNode) :
    (keysInOrder T ns).Nodup := by
  induction ns using List.reverseRecOn with
  | nil => simp [keysInOrder]
  | append_singleton ms n ih =>
    rw [keysInOrder_append]
    exact nodup_insertKey _ _ ih

theorem insertIntoClusters_map_of_mem (k : ℤ × ℤ) (n : CustomNode)
    (f : ℤ × ℤ → List CustomNode) :
    ∀ ks : List (ℤ × ℤ), ks.Nodup → k ∈ ks →
      insertIntoClusters k n (ks.map (fun j => (j, f j))) =
        ks.map (fun j => (j, f j ++ if j = k then [n] else [])) := by
  intro ks
  induction ks with
  | nil => intro _ hk; cases hk
  | cons j ks ih =>
    intro hnd hk
    simp only [List.map_cons, insertIntoClusters]
    by_cases hj : j = k
    · subst hj
      rw [if_pos rfl, if_pos rfl]
      have hnotin : j ∉ ks := (List.nodup_cons.mp hnd).1
      congr 1
      apply List.map_congr_left
      intro a ha
      have hne : a ≠ j := by
        rintro rfl
        exact hnotin ha
      simp [hne]
    · rw [if_neg hj, if_neg hj]
      have hk2 : k ∈ ks := by
        rcases List.mem_cons.mp hk with h | h
        · exact absurd h.symm hj
        · exact h
      rw [ih (List.nodup_cons.mp hnd).2 hk2]
      simp

theorem insertIntoClusters_of_not_mem (k : ℤ × ℤ) (n : CustomNode) :
    ∀ l : List ((ℤ × ℤ) × List CustomNode), (∀ p ∈ l, p.1 ≠ k) →
      insertIntoClusters k n l = l ++ [(k, [n])] := by
  intro l
  induction l with
  | nil => intro _; rfl
  | cons p rest ih =>
    intro h
    obtain ⟨j, g⟩ := p
    simp only [insertIntoClusters]
    rw [if_neg (h (j, g) (List.mem_cons_self _ _)),
      ih (fun q hq => h q (List.mem_cons_of_mem _ hq))]
    rfl

theorem buildClusters_eq_cellGroups (T : ℚ) (ns : List CustomNode) :
    buildClusters T ns = cellGroups T ns := by
  induction ns using List.reverseRecOn with
  | nil => rfl
  | append_singleton ms n ih =>
    rw [buildClusters_append, ih]
    unfold cellGroups
    rw [keysInOrder_append]
    by_cases hk : cellKey T n ∈ keysInOrder T ms
    · rw [insertKey, if_pos hk,
        insertIntoClusters_map_of_mem (cellKey T n) n _ (keysInOrder T ms)
          (keysInOrder_nodup T ms) hk]
      apply List.map_congr_left
      intro j hj
      rw [Prod.mk.injEq]
      refine ⟨rfl, ?_⟩
      rw [List.filter_append]
      congr 1
      by_cases hjk : j = cellKey T n
      · subst hjk
        simp [List.filter]
      · have hne : ¬ cellKey T n = j := fun h => hjk h.symm
        simp [List.filter, hne, hjk]
    · rw [insertKey, if_neg hk,
        insertIntoClusters_of_not_mem (cellKey T n) n _
          (by
            intro p hp
            obtain ⟨j, hj, rfl⟩ := List.mem_map.mp hp
            intro heq
            exact hk (heq ▸ hj)),
        List.map_append]
      congr 1
      · apply List.map_congr_left
        intro j hj
        rw [Prod.mk.injEq]
        refine ⟨rfl, ?_⟩
        rw [List.filter_append]
        have hne : ¬ cellKey T n = j := by
          intro heq
          exact hk (heq ▸ hj)
        simp [List.filter, hne]
      · simp only [List.map_cons, List.map_nil]
        rw [List.filter_append]
        have hempty : ms.filter (fun m => decide (cellKey T m = cellKey T n)) = [] := by
          rw [List.filter_eq_nil_iff]
          intro m hm hdm
          exact hk ((mem_keysInOrder T ms _).mpr ⟨m, hm, of_decide_eq_true hdm⟩)
        rw [hempty]
        simp [List.filter]

/-- C7 amended: clusterNodes is a pure function of the input node list and
threshold whose output is obtained by grouping the nodes into grid cells in
first appearance order with members in input order; a singleton cell yields
its node unchanged, any larger cell yields one ClusterNode whose id joins
the member ids in input order, so cluster ids depend on the member
enumeration order. -/
theorem c7_lod_clustering_characterization (ns : List CustomNode) (T : ℚ) :
    clusterNodes ns T = (cellGroups T ns).map (fun kg => mkLodElem kg.2) ∧
    (∀ c : ClusterNode, Sum.inr c ∈ clusterNodes ns T →
      c.id = "cluster-" ++ String.intercalate "-" (c.members.map (fun n => n.id)) ∧
      2 ≤ c.members.length) := by
  have hmain : clusterNodes ns T = (cellGroups T ns).map (fun kg => mkLodElem kg.2) := by
    unfold clusterNodes
    rw [buildClusters_eq_cellGroups]
  refine ⟨hmain, ?_⟩
  intro c hc
  rw [hmain] at hc
  obtain ⟨kg, hkg, heq⟩ := List.mem_map.mp hc
  obtain ⟨k, hkmem, rfl⟩ := List.mem_map.mp hkg
  rcases hg : (ns.filter (fun n => decide (cellKey T n = k))) with _ | ⟨m, rest⟩
  · exfalso
    obtain ⟨m, hm, hkey⟩ := (mem_keysInOrder T ns k).mp hkmem
    have : m ∈ ns.filter (fun n => decide (cellKey T n = k)) :=
      List.mem_filter.mpr ⟨hm, decide_eq_true hkey⟩
    rw [hg] at this
    cases this
  · rcases rest with _ | ⟨m2, rest2⟩
    · rw [hg] at heq
      simp [mkLodElem] at heq
    · rw [hg] at heq
      have heq2 :
          Sum.inr (α := CustomNode)
            { id := "cluster-" ++ String.intercalate "-"
                ((m :: m2 :: rest2).map (fun n => n.id)),
              uuid := "cluster-" ++ String.intercalate "-"
                ((m :: m2 :: rest2).map (fun n => n.uuid)),
              name := "Cluster (" ++ toString (m :: m2 :: rest2).length ++ ")",
              memberCount := (m :: m2 :: rest2).length,
              members := m :: m2 :: rest2 } = Sum.inr c := heq
      have hc2 := Sum.inr.inj heq2
      rw [← hc2]
      constructor
      · rfl
      · simp

/-- First node of the C7 counterexample, id a, at the origin. -/
def c7NodeA : CustomNode :=
  { id := "a", uuid := "ua", name := "A", type := none,
    human_readable_id := none, covariate_type := none, text := none,
    x := 0, y := 0, degree := 0, neighbors := [] }

/-- Second node of the C7 counterexample, id b, in the same grid cell. -/
def c7NodeB : CustomNode :=
  { id := "b", uuid := "ub", name := "B", type := none,
    human_readable_id := none, covariate_type := none, text := none,
    x := 0, y := 0, degree := 0, neighbors := [] }

/-- The cluster produced from the two co-located C7 nodes in the order
node a first. -/
def c7Cluster : ClusterNode :=
  { id := "cluster-a-b", uuid := "cluster-ua-ub", name := "Cluster (2)",
    memberCount := 2, members := [c7NodeA, c7NodeB] }

/-- Witness for the amended C7 theorem: on the concrete two node input the
produced cluster id joins the member ids in input order and the cluster
has two members. -/
theorem c7_lod_clustering_characterization_witness :
    c7Cluster.id =
      "cluster-" ++ String.intercalate "-" (c7Cluster.members.map (fun n => n.id)) ∧
    2 ≤ c7Cluster.members.length :=
  (c7_lod_clustering_characterization [c7NodeA, c7NodeB] clusterThreshold).2
    c7Cluster
    (by
      have hka : cellKey clusterThreshold c7NodeA = (0, 0) := by
        simp only [cellKey, jsRound, c7NodeA, clusterThreshold, Prod.mk.injEq]
        norm_num
      have hkb : cellKey clusterThreshold c7NodeB = (0, 0) := by
        simp only [cellKey, jsRound, c7NodeB, clusterThreshold, Prod.mk.injEq]
        norm_num
      have heval : clusterNodes [c7NodeA, c7NodeB] clusterThreshold =
          [Sum.inr c7Cluster] := by
        simp only [clusterNodes, buildClusters, List.foldl, hka, hkb,
          insertIntoClusters]
        rfl
      rw [heval]
      exact List.mem_singleton.mpr rfl)

/-- The ids of a level of detail element list. -/
def lodIds (es : List (Sum CustomNode ClusterNode)) : List String :=
  es.map (fun e => match e with | Sum.inl n => n.id | Sum.inr c => c.id)

/-- Counterexample for C7: the two orderings of the same two co-located
nodes are permutations of one another, yet clustering them at the same
threshold produces different cluster ids, because the id joins member ids
in enumeration order rather than sorted order. -/
theorem c7_cluster_id_order_counterexample :
    [c7NodeA, c7NodeB].Perm [c7NodeB, c7NodeA] ∧
    lodIds (clusterNodes [c7NodeA, c7NodeB] clusterThreshold) = ["cluster-a-b"] ∧
    lodIds (clusterNodes [c7NodeB, c7NodeA] clusterThreshold) = ["cluster-b-a"] ∧
    ("cluster-b-a" : String) ≠ "cluster-a-b" := by
  have hka : cellKey clusterThreshold c7NodeA = (0, 0) := by
    simp only [cellKey, jsRound, c7NodeA, clusterThreshold, Prod.mk.injEq]
    norm_num
  have hkb : cellKey clusterThreshold c7NodeB = (0, 0) := by
    simp only [cellKey, jsRound, c7NodeB, clusterThreshold, Prod.mk.injEq]
    norm_num
  refine ⟨List.Perm.swap _ _ _, ?_, ?_, ?_⟩
  · simp only [clusterNodes, buildClusters, List.foldl, hka, hkb,
      insertIntoClusters, lodIds]
    rfl
  · simp only [clusterNodes, buildClusters, List.foldl, hka, hkb,
      insertIntoClusters, lodIds]
    rfl
  · decide

/-- A plain node with all optional fields empty, used to build the bulk
datasets of the scheduler and offload models. -/
def plainNode (i : Nat) : CustomNode :=
  { id := toString i, uuid := toString i, name := toString i, type := none,
    human_readable_id := none, covariate_type := none, text := none,
    x := 0, y := 0, degree := 0, neighbors := [] }

/-- The chunk size of the progressive reveal effect. -/
def revealChunkSize : Nat := 100

/-- One scheduled addNodes callback: the closure captures the dataset of
the effect run that created it together with its own mutable index. -/
structure RevealTask where
  dataNodes : List CustomNode
  currentIndex : Nat
deriving DecidableEq, Repr

/-- The state of the progressive reveal machinery: the visibleNodes state
and the animation frame callbacks currently scheduled.  The effect of the
source returns no cleanup, so a new snapshot leaves old callbacks
scheduled; this list therefore never loses a task except by running it. -/
structure RevealState where
  visibleNodes : List CustomNode
  pending : List RevealTask
deriving DecidableEq, Repr

/-- The body of one addNodes invocation: slice the next chunk out of the
captured dataset, append it to the visible list, advance the index, and
schedule a continuation while the captured dataset is not exhausted. -/
def addNodesStep (t : RevealTask) (visible : List CustomNode) :
    List CustomNode × Option RevealTask :=
  let nextNodes := (t.dataNodes.drop t.currentIndex).take revealChunkSize
  let newVisible := visible ++ nextNodes
  let idx := t.currentIndex + revealChunkSize
  (newVisible,
    if idx < t.dataNodes.length then
      some { dataNodes := t.dataNodes, currentIndex := idx }
    else none)

/-- The events driving the reveal machinery: a new dataset snapshot (which
reruns the effect) or an animation frame tick (which runs the oldest
scheduled callback). -/
inductive RevealEvent
  | snapshot (nodes : List CustomNode)
  | frame
deriving Repr

/-- One event step.  On a snapshot the effect body runs: visibleNodes is
reset to empty and a fresh addNodes callback is scheduled; since the source
effect returns no cleanup, previously scheduled callbacks stay pending.  On
a frame the oldest pending callback runs. -/
def revealStep (s : RevealState) : RevealEvent → RevealState
  | RevealEvent.snapshot d =>
    { visibleNodes := [],
      pending := s.pending ++ [{ dataNodes := d, currentIndex := 0 }] }
  | RevealEvent.frame =>
    match s.pending with
    | [] => s
    | t :: rest =>
      let r := addNodesStep t s.visibleNodes
      { visibleNodes := r.1, pending := rest ++ r.2.toList }

/-- Run the reveal machinery over an event trace from the empty state. -/
def runReveal (evs : List RevealEvent) : RevealState :=
  evs.foldl revealStep { visibleNodes := [], pending := [] }

/-- The first snapshot of the C4 trace: 110 nodes, so the admission loop
needs two frames. -/
def c4OldData : List CustomNode := (List.range 110).map plainNode

/-- The second snapshot of the C4 trace, arriving mid admission. -/
def c4NewData : List CustomNode := [plainNode 900, plainNode 901]

/-- The C4 trace: the first snapshot admits one chunk, then the new
snapshot arrives, then the stale callback of the first loop fires, then
the admission of the new snapshot completes. -/
def c4Trace : List RevealEvent :=
  [RevealEvent.snapshot c4OldData, RevealEvent.frame,
   RevealEvent.snapshot c4NewData, RevealEvent.frame, RevealEvent.frame]

/-- C4 failing run: after the whole trace settles (no callback pending),
the visible list is the tail of the old snapshot followed by the new
snapshot, not the new snapshot alone: the stale step of the previous loop
appended its chunk instead of being a no-op. -/
theorem c4_reveal_mixes_old_and_new :
    (runReveal c4Trace).pending = [] ∧
    (runReveal c4Trace).visibleNodes = c4OldData.drop 100 ++ c4NewData ∧
    (runReveal c4Trace).visibleNodes ≠ c4NewData := by decide

/-- The per node position answer of the background layout worker. -/
structure WorkerNodeResult where
  id : String
  x : ℚ
  y : ℚ
deriving DecidableEq, Repr

/-- The merge performed by the worker onmessage handler: each node of the
captured dataset takes the position returned for its id; a missing id, or
a returned coordinate equal to zero (falsy), leaves the local coordinate
in place. -/
def mergePositions (d : CustomGraphData) (result : List WorkerNodeResult) :
    CustomGraphData :=
  { d with nodes := d.nodes.map (fun node =>
      { node with
        x := match (result.find? (fun m => m.id == node.id)).map (fun m => m.x) with
          | some q => if q = 0 then node.x else q
          | none => node.x,
        y := match (result.find? (fun m => m.id == node.id)).map (fun m => m.y) with
          | some q => if q = 0 then node.y else q
          | none => node.y }) }

/-- The offload channel state: the workerRunning gate flag, the dataset
captured by a live worker if any, and the graphData state. -/
structure OffloadState where
  workerRunning : Bool
  inFlight : Option CustomGraphData
  graphData : CustomGraphData
deriving DecidableEq, Repr

/-- The events driving the offload channel: a dataset change (which stores
the dataset and reruns the worker effect), a worker answer, a worker
failure, and component teardown. -/
inductive OffloadEvent
  | dataChange (d : CustomGraphData)
  | workerMessage (result : List WorkerNodeResult)
  | workerError
  | teardown

/-- One event step of the offload channel, following the source: the
effect spawns a worker and sets the gate only when the gate is clear and
the dataset holds more than 1000 nodes; the onmessage handler merges the
positions and clears the gate.  The source installs no onerror handler and
returns no cleanup, so on a worker failure and on teardown the gate flag
and the graph data are left untouched. -/
def offloadStep (s : OffloadState) : OffloadEvent → OffloadState
  | OffloadEvent.dataChange d =>
    let s1 := { s with graphData := d }
    if !s1.workerRunning && decide (1000 < d.nodes.length) then
      { s1 with workerRunning := true, inFlight := some d }
    else s1
  | OffloadEvent.workerMessage result =>
    match s.inFlight with
    | some d =>
      { workerRunning := false, inFlight := none,
        graphData := mergePositions d result }
    | none => s
  | OffloadEvent.workerError =>
    match s.inFlight with
    | some _ => { s with inFlight := none }
    | none => s
  | OffloadEvent.teardown => s

/-- Run the offload channel over an event trace from an idle state holding
the given initial dataset. -/
def runOffload (d0 : CustomGraphData) (evs : List OffloadEvent) : OffloadState :=
  evs.foldl offloadStep
    { workerRunning := false, inFlight := none, graphData := d0 }

/-- A dataset large enough to trigger the offload gate. -/
def c5Big : CustomGraphData :=
  { nodes := (List.range 1001).map plainNode, links := [] }

/-- The initial empty dataset of the C5 runs. -/
def c5Start : CustomGraphData := { nodes := [], links := [] }

set_option maxRecDepth 100000 in
/-- C5 failing run: after a large dataset spawns a worker and the worker
errors, the gate flag is still set although no worker is alive, no merge
happened, and a later dataset change can no longer start an offload; the
completion path by contrast does clear the flag. -/
theorem c5_offload_gate_stuck_on_error :
    (runOffload c5Start
      [OffloadEvent.dataChange c5Big, OffloadEvent.workerError]).workerRunning
        = true ∧
    (runOffload c5Start
      [OffloadEvent.dataChange c5Big, OffloadEvent.workerError]).inFlight
        = none ∧
    (runOffload c5Start
      [OffloadEvent.dataChange c5Big, OffloadEvent.workerError]).graphData
        = c5Big ∧
    (runOffload c5Start
      [OffloadEvent.dataChange c5Big, OffloadEvent.workerError,
       OffloadEvent.dataChange c5Big]).workerRunning = true ∧
    (runOffload c5Start
      [OffloadEvent.dataChange c5Big, OffloadEvent.workerError,
       OffloadEvent.dataChange c5Big]).inFlight = none ∧
    (runOffload c5Start
      [OffloadEvent.dataChange c5Big,
       OffloadEvent.workerMessage []]).workerRunning = false := by
  decide

/-- The hover pipeline as wired in the source: the onNodeHover prop of the
graph receives handleNodeHover itself, so every pointer move event invokes
it at once and stores a fresh HighlightSet.  The first component counts the
HighlightSet recomputations over a timed event list. -/
def runWiredHover (evs : List (Nat × Option HoverTarget)) :
    Nat × HighlightState :=
  evs.foldl (fun acc ev => (acc.1 + 1, handleNodeHover ev.2 acc.2))
    (0, emptyHighlight)

/-- The trailing edge debounce of the lodash wrapper around
handleNodeHover that the component defines but never passes to the graph:
a pending invocation fires only when no further call arrives within the
wait window, and the final pending invocation fires after the burst; the
delivered arguments are returned in order.  Event times are taken
nondecreasing. -/
def debounceDeliveries {α : Type} (wait : Nat) : List (Nat × α) → List α
  | [] => []
  | [(_, a)] => [a]
  | (t, a) :: (t2, b) :: rest =>
    (if t + wait ≤ t2 then [a] else []) ++
      debounceDeliveries wait ((t2, b) :: rest)

/-- The hover pipeline the component would have with the debounced wrapper
wired: only the delivered arguments reach handleNodeHover. -/
def runDebouncedHover (wait : Nat) (evs : List (Nat × Option HoverTarget)) :
    Nat × HighlightState :=
  let delivered := debounceDeliveries wait evs
  (delivered.length,
   delivered.foldl (fun st a => handleNodeHover a st) emptyHighlight)

/-- Ten hover events five milliseconds apart, all within fifty
milliseconds, each with a distinct target. -/
def c6Events : List (Nat × Option HoverTarget) :=
  (List.range 10).map (fun i => (5 * i, some ⟨plainNode (200 + i), [], []⟩))

/-- C6 failing run: through the pipeline as actually wired, ten hover
events within fifty milliseconds produce ten HighlightSet recomputations,
while the debounced wrapper the component never wires would produce
exactly one, reflecting the last event. -/
theorem c6_hover_not_coalesced :
    (runWiredHover c6Events).1 = 10 ∧
    (runDebouncedHover 100 c6Events).1 = 1 ∧
    (runDebouncedHover 100 c6Events).2 =
      handleNodeHover (some ⟨plainNode 209, [], []⟩) emptyHighlight := by
  decide

end GraphViewer
